import Mathlib

/-!
Verification of the IMGT_scrape utility (src/scripts/IMGT_scrape.py).

Python strings are modelled as `List Char` (abbreviated `Str`); the helper
`str` converts a Lean string literal to that representation.  The Python
string operations the script uses (`split` on a one-character separator,
`join`, `replace` of one character by another, `strip`, `upper`, `in`)
are modelled directly on `List Char` so that every definition is
executable and kernel-reducible.
-/

namespace IMGT

/-- Python strings, modelled as lists of characters. -/
abbrev Str := List Char

/-- Convert a Lean string literal to the `Str` model. -/
def str (s : String) : Str := s.data

/-- Python's notion of whitespace for `str.strip()`:
space, tab, newline, carriage return, vertical tab, form feed. -/
def pyIsSpace (c : Char) : Bool :=
  c = ' ' || c = '\t' || c = '\n' || c = '\r' || c = '\x0b' || c = '\x0c'

/-- Python `s.strip()`: remove leading and trailing whitespace. -/
def pyStrip (s : Str) : Str :=
  ((s.dropWhile pyIsSpace).reverse.dropWhile pyIsSpace).reverse

/-- Python `s.split(sep)` for a one-character separator `sep`.
`"".split(sep) = [""]`, i.e. `pySplit sep [] = [[]]`. -/
def pySplit (sep : Char) : Str → List Str
  | [] => [[]]
  | c :: cs =>
    let r := pySplit sep cs
    if c = sep then [] :: r
    else
      match r with
      | [] => [[c]]
      | h :: t => (c :: h) :: t

/-- Python `sep.join(xs)` for a one-character separator. -/
def pyJoin (sep : Char) : List Str → Str
  | [] => []
  | [x] => x
  | x :: y :: t => x ++ sep :: pyJoin sep (y :: t)

/-- Python `s.replace(a, b)` where `a` and `b` are single characters. -/
def pyReplace (a b : Char) (s : Str) : Str :=
  s.map fun c => if c = a then b else c

/-- Python `s.upper()`, modelled as ASCII upper-casing per character. -/
def pyUpper (s : Str) : Str := s.map Char.toUpper

/-- `edit_header` (IMGT_scrape.py lines 78-90):
`"_".join(header.split("|")[0:3]).replace(" ", "_")`. -/
def edit_header (header : Str) : Str :=
  let new_header := pyJoin '_' ((pySplit '|' header).take 3)
  pyReplace ' ' '_' new_header

/-- The `options` dict of `convert_frame` (lines 287-289). -/
def frame_options : List (Str × Str) :=
  [(str "all", str "7.2"), (str "in-frame", str "7.5"),
   (str "in-frame-gaps", str "7.1")]

/-- Python `frame or "all"`: `None` and the empty string are falsy. -/
def frameOrAll (frame : Option Str) : Str :=
  match frame with
  | none => str "all"
  | some s => if s.isEmpty then str "all" else s

/-- `convert_frame` (lines 275-290): `options[frame or "all"]`.
A key outside the dict raises `KeyError`, modelled as `none`. -/
def convert_frame (frame : Option Str) : Option Str :=
  frame_options.lookup (frameOrAll frame)

/-! ## Page scraper and URL builder -/

/-- An HTTP response (`requests.models.Response`), reduced to the two
observations the script makes of it: the status code, and the list of
`<pre>` block texts that `BeautifulSoup(response.text).find_all('pre')`
yields, in document order. -/
structure Response where
  status_code : Nat
  pre_blocks : List Str

/-- `scrape` (lines 142-163): walk the `<pre>` blocks in order; for each,
strip its text and return it if it contains `'>'`; `None` otherwise. -/
def scrape (pre_blocks : List Str) : Option Str :=
  match pre_blocks with
  | [] => none
  | p :: ps =>
    let seq := pyStrip p
    if seq.contains '>' then some seq else scrape ps

/-- Characters `urllib.parse.quote` never encodes when the safe parameter is empty:
ASCII letters, digits, and `_.-~`. -/
def quoteSafe (c : Char) : Bool :=
  c.isAlpha || c.isDigit || c = '_' || c = '.' || c = '-' || c = '~'

/-- Upper-case hexadecimal digit for `n < 16`. -/
def hexDigit (n : Nat) : Char :=
  if n < 10 then Char.ofNat ('0'.toNat + n) else Char.ofNat ('A'.toNat + n - 10)

/-- UTF-8 encoding of one character, as byte values. -/
def utf8Bytes (c : Char) : List Nat :=
  let n := c.toNat
  if n < 0x80 then [n]
  else if n < 0x800 then [0xC0 + n / 64, 0x80 + n % 64]
  else if n < 0x10000 then
    [0xE0 + n / 4096, 0x80 + (n / 64) % 64, 0x80 + n % 64]
  else
    [0xF0 + n / 262144, 0x80 + (n / 4096) % 64, 0x80 + (n / 64) % 64,
     0x80 + n % 64]

/-- `urllib.parse.quote_plus` with an empty safe parameter: a space becomes `'+'`, safe
characters pass through, every other character is UTF-8 encoded and each
byte written as `%XX` with upper-case hex. -/
def quote_plus (s : Str) : Str :=
  s.flatMap fun c =>
    if c = ' ' then ['+']
    else if quoteSafe c then [c]
    else (utf8Bytes c).flatMap fun b => ['%', hexDigit (b / 16), hexDigit (b % 16)]

/-- `urllib.parse.urlencode` on an ordered list of key-value pairs:
`quote_plus(k) ++ "=" ++ quote_plus(v)` joined by `'&'`. -/
def urlencode (params : List (Str × Str)) : Str :=
  pyJoin '&' (params.map fun kv => quote_plus kv.1 ++ '=' :: quote_plus kv.2)

/-- `construct_url` (lines 116-139): base URL plus `'?'` plus the encoded
`query = "{frame} {segment}"` and `species = {species}` parameters. -/
def construct_url (segment species frame : Str) : Str :=
  let base_url := str "https://www.imgt.org/genedb/GENElect"
  let params := [(str "query", frame ++ ' ' :: segment), (str "species", species)]
  base_url ++ '?' :: urlencode params

/-! ## Effect trace

The script's side effects — the HTTP GET, the file write, each logging
call, and the rate-limiting sleep — are modelled as an event trace.
Each constructor corresponds to exactly one statement of the source.
File paths are relative to the target directory. -/

inductive Event where
  /-- `requests.get(url)` (line 203). -/
  | get (url : Str)
  /-- The write performed by `write_sequence` (lines 180-181). -/
  | wrote (file : Str) (content : Str)
  /-- `logging.warning("No sequences found for {segment} of {species}.")` (line 209). -/
  | warnNoSequences (segment species : Str)
  /-- `logging.warning("Failed to fetch data for {segment} of {species}. Status code: {code}")` (lines 211-212). -/
  | warnFailedFetch (segment species : Str) (code : Nat)
  /-- `logging.info("Retrieving sequences from IMGT for the {segment} of {species}")` (lines 252-253). -/
  | infoRetrieving (segment species : Str)
  /-- `logging.info("File {segment}.fasta already exists skipping!")` (line 257). -/
  | infoExists (segment : Str)
  /-- `logging.info("Writing sequences from {name} to {file}")` (line 179). -/
  | infoWriting (name : Str)
  /-- `logging.info("Succeeded to retrieve sequences from IMGT")`, emitted
  inside `scrape` when a block matches (line 162). -/
  | infoSucceeded
  /-- `logging.info("Waiting 2 seconds to avoid overloading the IMGT server!")` (line 213). -/
  | infoWaiting
  /-- `time.sleep(seconds)` (lines 214 and 258). -/
  | slept (seconds : Nat)
deriving DecidableEq, Repr

/-- `write_sequence` (lines 166-181): log, then write
`str(sequence) + "\n"` to `{name}.fasta` (mode `'w'`). -/
def write_sequence (name : Str) (sequence : Str) : List Event :=
  [Event.infoWriting name,
   Event.wrote (name ++ str ".fasta") (sequence ++ str "\n")]

/-- `fetch_sequence` (lines 184-214).  The network is a function `net`
from URL to response.  On status 200 with a matching `<pre>` block the
per-segment file is written; otherwise a warning is logged and no file
is touched; a 2-second sleep always ends the call. -/
def fetch_sequence (segment species frame : Str) (net : Str → Response)
    : List Event :=
  let url := construct_url segment species frame
  let response := net url
  Event.get url ::
  (if response.status_code = 200 then
    match scrape response.pre_blocks with
    | some sequence => Event.infoSucceeded :: write_sequence segment sequence
    | none => [Event.warnNoSequences segment species]
  else
    [Event.warnFailedFetch segment species response.status_code])
  ++ [Event.infoWaiting, Event.slept 2]

/-- The `segments` dict of `scrape_IMGT` (lines 238-247); its only keys
are `"TR"` and `"IG"`. -/
def segments : List (Str × List Str) :=
  [(str "TR",
    [str "TRBV", str "TRBJ", str "TRBD", str "TRAV", str "TRAJ",
     str "TRDD", str "TRDJ", str "TRDV", str "TRGV", str "TRGJ"]),
   (str "IG",
    [str "IGHV", str "IGHD", str "IGHJ", str "IGKV",
     str "IGKJ", str "IGLV", str "IGLJ"])]

/-- One iteration of the `for segment in segments[immune_type]` loop
(lines 251-258).  `existing` is the set of file names present in the
target directory, so `Path(directory / f"{segment}.fasta").exists()`
becomes a membership test. -/
def process_segment (species frame : Str) (existing : List Str)
    (net : Str → Response) (segment : Str) : List Event :=
  Event.infoRetrieving segment species ::
  (if !(existing.contains (segment ++ str ".fasta")) then
    fetch_sequence segment species frame net
  else
    [Event.infoExists segment, Event.slept 2])

/-- `scrape_IMGT` (lines 217-258).  The dict lookup
`segments[immune_type]` raises `KeyError` (modelled as `Except.error`
carrying the missing key) before the loop body runs; otherwise the
segments are processed strictly in list order.  `make_dir` only ensures
the directory exists and does not change the file-name set. -/
def scrape_IMGT (species immune_type : Str) (existing : List Str)
    (frame : Str) (net : Str → Response) : Except Str (List Event) :=
  match segments.lookup immune_type with
  | none => Except.error immune_type
  | some segs =>
    Except.ok (segs.flatMap (process_segment species frame existing net))

/-! ## Cleanup, library builder, CLI -/

/-- Whether a file name is matched by `directory.glob("*.fasta")`
(pathlib's glob applies fnmatch with no special case for leading dots,
so this is exactly "ends with `.fasta`"). -/
def isFasta (f : Str) : Bool := (str ".fasta").isSuffixOf f

/-- The unlink loop of `cleanup` (lines 71-72): every `*.fasta` file in
the directory is removed; the remaining contents are returned. -/
def unlink_fastas (contents : List Str) : List Str :=
  contents.filter fun f => !(isFasta f)

/-- `Path.rmdir` (line 73): succeeds only on an empty directory,
otherwise raises `OSError` (modelled as `Except.error` carrying the
directory's remaining contents, which are left in place). -/
def rmdir (contents : List Str) : Except (List Str) Unit :=
  if contents.isEmpty then Except.ok () else Except.error contents

/-- `cleanup` (lines 62-75): unlink every `*.fasta` file, then remove
the directory itself; the error from a non-empty `rmdir` propagates. -/
def cleanup (contents : List Str) : Except (List Str) Unit :=
  rmdir (unlink_fastas contents)

/-- A FASTA record as biopython's `SeqIO.parse(file, "fasta")` yields it:
the header (`record.description`) and the sequence letters
(`record.seq`). -/
structure Record where
  description : Str
  seq : Str

/-- The string written for one record by `create_library` (line 112):
`f">{record.description}\n{record.seq.upper()}\n"`, with the header
first simplified when `simple_headers` is set (lines 110-111). -/
def record_entry (simple_headers : Bool) (r : Record) : Str :=
  let desc := if simple_headers then edit_header r.description else r.description
  '>' :: (desc ++ '\n' :: (pyUpper r.seq ++ str "\n"))

/-- The path `directory.parent / "library" / "library.fasta"` of
`create_library` (lines 105-107), with paths as component lists. -/
def library_path (directory : List Str) : List Str :=
  directory.dropLast ++ [str "library", str "library.fasta"]

/-- `create_library` (lines 93-113).  `files` are the parsed contents of
the `*.fasta` files of the target directory, in glob order.  Returns the
library file's path components and the list of strings written to it, in
order; since the file is opened with mode `'w'` (truncate), their
concatenation is the final file content. -/
def create_library (directory : List Str) (files : List (List Record))
    (simple_headers : Bool) : List Str × List Str :=
  (library_path directory,
   files.flatMap fun recs => recs.map (record_entry simple_headers))

/-- The `choices` list of the `--type` argument (line 341). -/
def type_choices : List Str := [str "TR", str "IG"]

/-- argparse's handling of `--type` (lines 341-342): apply
`type=str.upper`, then accept the value iff it is in `choices`; any
other value is a usage error (`Except.error`) raised at parse time. -/
def parse_type (raw : Str) : Except Str Str :=
  let v := pyUpper raw
  if type_choices.contains v then Except.ok v else Except.error v

/-! ## Trace projections -/

/-- The URLs fetched over the network (`requests.get` calls), in order. -/
def netCalls (t : List Event) : List Str :=
  t.filterMap fun e =>
    match e with
    | Event.get url => some url
    | _ => none

/-- The `(file, content)` pairs written, in order. -/
def writesOf (t : List Event) : List (Str × Str) :=
  t.filterMap fun e =>
    match e with
    | Event.wrote f c => some (f, c)
    | _ => none

/-- Number of warnings logged. -/
def warnCount (t : List Event) : Nat :=
  t.countP fun e =>
    match e with
    | Event.warnNoSequences _ _ => true
    | Event.warnFailedFetch _ _ _ => true
    | _ => false

/-- The segments whose loop iteration started (the per-segment
"Retrieving sequences" log), in order. -/
def startedSegments (t : List Event) : List Str :=
  t.filterMap fun e =>
    match e with
    | Event.infoRetrieving s _ => some s
    | _ => none

/-! ## Theorems -/

/-- Replacing characters distributes over `pyJoin` when the separator is
left unchanged by the replacement. -/
theorem pyReplace_pyJoin (a b sep : Char) (hsep : (if sep = a then b else sep) = sep)
    (xs : List Str) :
    pyReplace a b (pyJoin sep xs) = pyJoin sep (xs.map (pyReplace a b)) := by
  induction xs with
  | nil => rfl
  | cons x t ih =>
    cases t with
    | nil => rfl
    | cons y t2 =>
      simp only [pyJoin, pyReplace, List.map_append, List.map_cons, List.map] at ih ⊢
      rw [hsep]
      rw [ih]

/-- C6: `edit_header` keeps the first three `|`-delimited fields of the
header, joined by underscores, with every space replaced by an
underscore; on `acc123|Homo sapiens|TRBV1|extra|fields` it yields
`acc123_Homo_sapiens_TRBV1`. -/
theorem edit_header_spec :
    (∀ h : Str, edit_header h =
      pyJoin '_' (((pySplit '|' h).take 3).map (pyReplace ' ' '_'))) ∧
    edit_header (str "acc123|Homo sapiens|TRBV1|extra|fields") =
      str "acc123_Homo_sapiens_TRBV1" := by
  constructor
  · intro h
    show pyReplace ' ' '_' (pyJoin '_' ((pySplit '|' h).take 3)) = _
    exact pyReplace_pyJoin ' ' '_' '_' (by decide) _
  · decide

/-- C3: `convert_frame` maps `all` to `7.2`, `in-frame` to `7.5`,
`in-frame-gaps` to `7.1`, and an unset frame (`None`) to `7.2`. -/
theorem convert_frame_spec :
    convert_frame (some (str "all")) = some (str "7.2") ∧
    convert_frame (some (str "in-frame")) = some (str "7.5") ∧
    convert_frame (some (str "in-frame-gaps")) = some (str "7.1") ∧
    convert_frame none = some (str "7.2") := by
  decide

/-- C4: `scrape` returns the stripped text of the first `<pre>` block
whose stripped text contains `'>'`, and returns nothing when no such
block exists; no further FASTA validation is performed. -/
theorem scrape_spec :
    ∀ pre_blocks : List Str,
      scrape pre_blocks =
        (pre_blocks.map pyStrip).find? (fun s => s.contains '>') ∧
      ((∀ p ∈ pre_blocks, ¬ (pyStrip p).contains '>') →
        scrape pre_blocks = none) := by
  intro blocks
  have key : ∀ l : List Str,
      scrape l = (l.map pyStrip).find? (fun s => s.contains '>') := by
    intro l
    induction l with
    | nil => rfl
    | cons p ps ih =>
      rw [List.map_cons]
      cases h : (pyStrip p).contains '>' with
      | true =>
        have h1 : scrape (p :: ps) = some (pyStrip p) := by
          show (if (pyStrip p).contains '>' then some (pyStrip p) else scrape ps) = _
          rw [h]
          simp
        have hb : ((fun s : Str => s.contains '>') (pyStrip p)) = true := by
          show List.contains (pyStrip p) '>' = true
          exact h
        rw [h1]
        exact (List.find?_cons_of_pos (List.map pyStrip ps) hb).symm
      | false =>
        have h1 : scrape (p :: ps) = scrape ps := by
          show (if (pyStrip p).contains '>' then some (pyStrip p) else scrape ps) = _
          rw [h]
          simp
        have hb : ¬ (((fun s : Str => s.contains '>') (pyStrip p)) = true) := by
          show ¬ (List.contains (pyStrip p) '>' = true)
          rw [h]
          simp
        rw [h1, ih]
        exact (List.find?_cons_of_neg (List.map pyStrip ps) hb).symm
  refine ⟨key blocks, fun hnone => ?_⟩
  rw [key blocks]
  rw [List.find?_eq_none]
  intro s hs
  rcases List.mem_map.mp hs with ⟨p, hp, rfl⟩
  simpa using hnone p hp

/-- C4 witness: a document whose second block holds FASTA text yields
that block stripped; a document with no `'>'` yields nothing. -/
theorem scrape_spec_witness :
    scrape [str "plain text", str "  >h\nACGT  "] = some (str ">h\nACGT") ∧
    scrape [str "plain text"] = none := by
  constructor
  · rw [(scrape_spec [str "plain text", str "  >h\nACGT  "]).1]
    decide
  · exact (scrape_spec [str "plain text"]).2 (by decide)

/-- C7: `construct_url` is total and returns the base URL followed by
`'?'` and the percent-encoded `query={frame} {segment}` and
`species={species}` parameters. -/
theorem construct_url_spec :
    ∀ segment species frame : Str,
      construct_url segment species frame =
        str "https://www.imgt.org/genedb/GENElect?query=" ++
          quote_plus (frame ++ ' ' :: segment) ++
          str "&species=" ++ quote_plus species := by
  intro segment species frame
  have hq : str "https://www.imgt.org/genedb/GENElect?query=" =
      str "https://www.imgt.org/genedb/GENElect" ++ '?' :: str "query" ++ ['='] := by
    decide
  have hs : str "&species=" = '&' :: str "species" ++ ['='] := by decide
  have hq2 : quote_plus (str "query") = str "query" := by decide
  have hs2 : quote_plus (str "species") = str "species" := by decide
  show str "https://www.imgt.org/genedb/GENElect" ++ '?' :: urlencode _ = _
  simp only [urlencode, List.map, pyJoin, hq, hs, hq2, hs2]
  simp [List.append_assoc]

/-- The last element of a list ending in two fixed events. -/
theorem getLast_append_pair (l : List Event) (a b : Event) :
    (l ++ [a, b]).getLast? = some b := by
  have h : l ++ [a, b] = (l ++ [a]) ++ [b] := by simp
  rw [h, List.getLast?_concat]

/-- C5: `fetch_sequence` writes the per-segment file iff the response
status is 200 and the scraper finds a block containing `'>'`; in that
case it writes exactly `{segment}.fasta` with the scraped text plus a
newline; in every other case it writes nothing and logs exactly one
warning; and in every case the final action is a 2-second sleep. -/
theorem fetch_sequence_spec :
    ∀ (segment species frame : Str) (net : Str → Response),
      (writesOf (fetch_sequence segment species frame net) ≠ [] ↔
        (net (construct_url segment species frame)).status_code = 200 ∧
          (scrape (net (construct_url segment species frame)).pre_blocks).isSome) ∧
      (∀ seq : Str,
        (net (construct_url segment species frame)).status_code = 200 →
        scrape (net (construct_url segment species frame)).pre_blocks = some seq →
        writesOf (fetch_sequence segment species frame net) =
          [(segment ++ str ".fasta", seq ++ str "\n")]) ∧
      (¬ ((net (construct_url segment species frame)).status_code = 200 ∧
            (scrape (net (construct_url segment species frame)).pre_blocks).isSome) →
        writesOf (fetch_sequence segment species frame net) = [] ∧
        warnCount (fetch_sequence segment species frame net) = 1) ∧
      (fetch_sequence segment species frame net).getLast? = some (Event.slept 2) := by
  intro segment species frame net
  by_cases h200 : (net (construct_url segment species frame)).status_code = 200
  · cases hs : scrape (net (construct_url segment species frame)).pre_blocks with
    | some seq =>
      have ht : fetch_sequence segment species frame net =
          (Event.get (construct_url segment species frame) ::
            (Event.infoSucceeded :: write_sequence segment seq)) ++
            [Event.infoWaiting, Event.slept 2] := by
        simp only [fetch_sequence]
        rw [if_pos h200, hs]
      refine ⟨?_, ?_, ?_, ?_⟩
      · rw [ht]
        simp [writesOf, write_sequence, List.filterMap_cons, h200]
      · intro seq2 _ hs2
        cases hs2
        rw [ht]
        simp [writesOf, write_sequence, List.filterMap_cons]
      · intro hcon
        exact absurd ⟨h200, rfl⟩ hcon
      · rw [ht]
        exact getLast_append_pair _ _ _
    | none =>
      have ht : fetch_sequence segment species frame net =
          (Event.get (construct_url segment species frame) ::
            [Event.warnNoSequences segment species]) ++
            [Event.infoWaiting, Event.slept 2] := by
        simp only [fetch_sequence]
        rw [if_pos h200, hs]
      refine ⟨?_, ?_, ?_, ?_⟩
      · rw [ht]
        simp [writesOf, List.filterMap_cons]
      · intro seq2 _ hs2
        cases hs2
      · intro _
        refine ⟨?_, ?_⟩
        · rw [ht]
          simp [writesOf, List.filterMap_cons]
        · rw [ht]
          simp [warnCount, List.countP_cons]
      · rw [ht]
        exact getLast_append_pair _ _ _
  · have ht : fetch_sequence segment species frame net =
        (Event.get (construct_url segment species frame) ::
          [Event.warnFailedFetch segment species
            (net (construct_url segment species frame)).status_code]) ++
          [Event.infoWaiting, Event.slept 2] := by
      simp only [fetch_sequence]
      rw [if_neg h200]
    refine ⟨?_, ?_, ?_, ?_⟩
    · rw [ht]
      simp [writesOf, List.filterMap_cons, h200]
    · intro seq2 h2 _
      exact absurd h2 h200
    · intro _
      refine ⟨?_, ?_⟩
      · rw [ht]
        simp [writesOf, List.filterMap_cons]
      · rw [ht]
        simp [warnCount, List.countP_cons]
    · rw [ht]
      exact getLast_append_pair _ _ _

/-- C5 witness: a 200 response with a FASTA block produces exactly the
segment file write; a 404 response produces no write, one warning, and
still ends with the 2-second sleep. -/
theorem fetch_sequence_spec_witness :
    writesOf (fetch_sequence (str "TRBV") (str "Homo sapiens") (str "7.2")
        (fun _ => ⟨200, [str " >h\nAC "]⟩)) =
      [(str "TRBV.fasta", str ">h\nAC\n")] ∧
    writesOf (fetch_sequence (str "TRBV") (str "Homo sapiens") (str "7.2")
        (fun _ => ⟨404, []⟩)) = [] ∧
    (fetch_sequence (str "TRBV") (str "Homo sapiens") (str "7.2")
        (fun _ => ⟨404, []⟩)).getLast? = some (Event.slept 2) := by
  refine ⟨?_, ?_, ?_⟩
  · have h := (fetch_sequence_spec (str "TRBV") (str "Homo sapiens") (str "7.2")
      (fun _ => ⟨200, [str " >h\nAC "]⟩)).2.1 (str ">h\nAC") rfl (by decide)
    rw [h]
    decide
  · exact ((fetch_sequence_spec (str "TRBV") (str "Homo sapiens") (str "7.2")
      (fun _ => ⟨404, []⟩)).2.2.1 (by decide)).1
  · exact (fetch_sequence_spec (str "TRBV") (str "Homo sapiens") (str "7.2")
      (fun _ => ⟨404, []⟩)).2.2.2

theorem netCalls_append (s t : List Event) :
    netCalls (s ++ t) = netCalls s ++ netCalls t :=
  List.filterMap_append s t _

theorem startedSegments_append (s t : List Event) :
    startedSegments (s ++ t) = startedSegments s ++ startedSegments t :=
  List.filterMap_append s t _

/-- `fetch_sequence` performs exactly one network call, to the
constructed URL. -/
theorem netCalls_fetch_sequence (segment species frame : Str)
    (net : Str → Response) :
    netCalls (fetch_sequence segment species frame net) =
      [construct_url segment species frame] := by
  simp only [fetch_sequence, netCalls]
  rw [List.filterMap_append]
  split
  · split <;> simp [write_sequence, List.filterMap_cons]
  · simp [List.filterMap_cons]

/-- `fetch_sequence` never emits the per-segment loop-start log. -/
theorem startedSegments_fetch_sequence (segment species frame : Str)
    (net : Str → Response) :
    startedSegments (fetch_sequence segment species frame net) = [] := by
  simp only [fetch_sequence, startedSegments]
  rw [List.filterMap_append]
  split
  · split <;> simp [write_sequence, List.filterMap_cons]
  · simp [List.filterMap_cons]

/-- Per loop iteration: a network call happens exactly when the
per-segment file is absent. -/
theorem netCalls_process_segment (species frame : Str) (existing : List Str)
    (net : Str → Response) (s : Str) :
    netCalls (process_segment species frame existing net s) =
      if existing.contains (s ++ str ".fasta") then []
      else [construct_url s species frame] := by
  by_cases h : existing.contains (s ++ str ".fasta") = true
  · have hm : s ++ str ".fasta" ∈ existing := by simpa using h
    simp [process_segment, hm, netCalls, List.filterMap_cons]
  · have hnm : ¬ (s ++ str ".fasta" ∈ existing) := by simpa using h
    have h1 : process_segment species frame existing net s =
        Event.infoRetrieving s species :: fetch_sequence s species frame net := by
      simp [process_segment, hnm]
    have h2 : netCalls
        (Event.infoRetrieving s species :: fetch_sequence s species frame net) =
        netCalls (fetch_sequence s species frame net) := by
      simp [netCalls, List.filterMap_cons]
    rw [h1, h2, netCalls_fetch_sequence]
    simp [hnm]

/-- Every loop iteration starts by logging exactly its segment. -/
theorem startedSegments_process_segment (species frame : Str)
    (existing : List Str) (net : Str → Response) (s : Str) :
    startedSegments (process_segment species frame existing net s) = [s] := by
  by_cases h : existing.contains (s ++ str ".fasta") = true
  · have hm : s ++ str ".fasta" ∈ existing := by simpa using h
    simp [process_segment, hm, startedSegments, List.filterMap_cons]
  · have hnm : ¬ (s ++ str ".fasta" ∈ existing) := by simpa using h
    have h1 : process_segment species frame existing net s =
        Event.infoRetrieving s species :: fetch_sequence s species frame net := by
      simp [process_segment, hnm]
    have h2 : startedSegments
        (Event.infoRetrieving s species :: fetch_sequence s species frame net) =
        s :: startedSegments (fetch_sequence s species frame net) := by
      simp [startedSegments, List.filterMap_cons]
    rw [h1, h2, startedSegments_fetch_sequence]

/-- The loop over any segment list starts every segment, in list
order. -/
theorem startedSegments_run (species frame : Str) (existing : List Str)
    (net : Str → Response) (l : List Str) :
    startedSegments (l.flatMap (process_segment species frame existing net)) = l := by
  induction l with
  | nil => rfl
  | cons s t ih =>
    rw [List.flatMap_cons, startedSegments_append,
      startedSegments_process_segment, ih]
    rfl

/-- The loop over any segment list fetches exactly the segments whose
file is absent, in list order. -/
theorem netCalls_run (species frame : Str) (existing : List Str)
    (net : Str → Response) (l : List Str) :
    netCalls (l.flatMap (process_segment species frame existing net)) =
      (l.filter fun s => !(existing.contains (s ++ str ".fasta"))).map
        (fun s => construct_url s species frame) := by
  induction l with
  | nil => rfl
  | cons s t ih =>
    rw [List.flatMap_cons, netCalls_append, netCalls_process_segment, ih,
      List.filter_cons]
    cases h : existing.contains (s ++ str ".fasta") with
    | true => simp [h]
    | false => simp [h]

/-- C1: `scrape_IMGT` processes the segments strictly in the fixed list
order (TRBV…TRGJ for TR, IGHV…IGLJ for IG); it fetches exactly the
segments whose `{segment}.fasta` file is absent from the target
directory, in that order; and when every segment file exists it performs
zero network calls. -/
theorem scrape_IMGT_spec :
    ∀ (species frame : Str) (existing : List Str) (net : Str → Response),
      (scrape_IMGT species (str "TR") existing frame net).map startedSegments =
        Except.ok [str "TRBV", str "TRBJ", str "TRBD", str "TRAV", str "TRAJ",
          str "TRDD", str "TRDJ", str "TRDV", str "TRGV", str "TRGJ"] ∧
      (scrape_IMGT species (str "IG") existing frame net).map startedSegments =
        Except.ok [str "IGHV", str "IGHD", str "IGHJ", str "IGKV",
          str "IGKJ", str "IGLV", str "IGLJ"] ∧
      (scrape_IMGT species (str "TR") existing frame net).map netCalls =
        Except.ok (([str "TRBV", str "TRBJ", str "TRBD", str "TRAV",
            str "TRAJ", str "TRDD", str "TRDJ", str "TRDV", str "TRGV",
            str "TRGJ"].filter
          (fun s => !(existing.contains (s ++ str ".fasta")))).map
          (fun s => construct_url s species frame)) ∧
      (scrape_IMGT species (str "IG") existing frame net).map netCalls =
        Except.ok (([str "IGHV", str "IGHD", str "IGHJ", str "IGKV",
            str "IGKJ", str "IGLV", str "IGLJ"].filter
          (fun s => !(existing.contains (s ++ str ".fasta")))).map
          (fun s => construct_url s species frame)) ∧
      ((∀ s ∈ ([str "TRBV", str "TRBJ", str "TRBD", str "TRAV", str "TRAJ",
          str "TRDD", str "TRDJ", str "TRDV", str "TRGV", str "TRGJ"] : List Str),
          (s ++ str ".fasta") ∈ existing) →
        (scrape_IMGT species (str "TR") existing frame net).map netCalls =
          Except.ok []) ∧
      ((∀ s ∈ ([str "IGHV", str "IGHD", str "IGHJ", str "IGKV",
          str "IGKJ", str "IGLV", str "IGLJ"] : List Str),
          (s ++ str ".fasta") ∈ existing) →
        (scrape_IMGT species (str "IG") existing frame net).map netCalls =
          Except.ok []) := by
  intro species frame existing net
  have hTR : scrape_IMGT species (str "TR") existing frame net =
      Except.ok (([str "TRBV", str "TRBJ", str "TRBD", str "TRAV", str "TRAJ",
        str "TRDD", str "TRDJ", str "TRDV", str "TRGV", str "TRGJ"] : List Str).flatMap
        (process_segment species frame existing net)) := rfl
  have hIG : scrape_IMGT species (str "IG") existing frame net =
      Except.ok (([str "IGHV", str "IGHD", str "IGHJ", str "IGKV",
        str "IGKJ", str "IGLV", str "IGLJ"] : List Str).flatMap
        (process_segment species frame existing net)) := rfl
  have hzero : ∀ l : List Str, (∀ s ∈ l, (s ++ str ".fasta") ∈ existing) →
      (l.filter fun s => !(existing.contains (s ++ str ".fasta"))) = [] := by
    intro l h
    rw [List.filter_eq_nil_iff]
    intro s hs
    simpa using h s hs
  refine ⟨?_, ?_, ?_, ?_, ?_, ?_⟩
  · rw [hTR]
    show Except.ok _ = _
    rw [startedSegments_run]
  · rw [hIG]
    show Except.ok _ = _
    rw [startedSegments_run]
  · rw [hTR]
    show Except.ok _ = _
    rw [netCalls_run]
  · rw [hIG]
    show Except.ok _ = _
    rw [netCalls_run]
  · intro h
    rw [hTR]
    show Except.ok _ = _
    rw [netCalls_run, hzero _ h]
    rfl
  · intro h
    rw [hIG]
    show Except.ok _ = _
    rw [netCalls_run, hzero _ h]
    rfl

/-- C1 witness: with every TR segment file present, the TR run makes
zero network calls; with an empty directory it fetches all ten segments
in order. -/
theorem scrape_IMGT_spec_witness :
    (scrape_IMGT (str "Homo sapiens") (str "TR")
        [str "TRBV.fasta", str "TRBJ.fasta", str "TRBD.fasta",
         str "TRAV.fasta", str "TRAJ.fasta", str "TRDD.fasta",
         str "TRDJ.fasta", str "TRDV.fasta", str "TRGV.fasta",
         str "TRGJ.fasta"] (str "7.2") (fun _ => ⟨404, []⟩)).map netCalls =
      Except.ok [] ∧
    (scrape_IMGT (str "Homo sapiens") (str "TR") [] (str "7.2")
        (fun _ => ⟨404, []⟩)).map startedSegments =
      Except.ok [str "TRBV", str "TRBJ", str "TRBD", str "TRAV", str "TRAJ",
        str "TRDD", str "TRDJ", str "TRDV", str "TRGV", str "TRGJ"] := by
  constructor
  · exact (scrape_IMGT_spec (str "Homo sapiens") (str "7.2")
      [str "TRBV.fasta", str "TRBJ.fasta", str "TRBD.fasta",
       str "TRAV.fasta", str "TRAJ.fasta", str "TRDD.fasta",
       str "TRDJ.fasta", str "TRDV.fasta", str "TRGV.fasta",
       str "TRGJ.fasta"] (fun _ => ⟨404, []⟩)).2.2.2.2.1 (by decide)
  · exact (scrape_IMGT_spec (str "Homo sapiens") (str "7.2") []
      (fun _ => ⟨404, []⟩)).1

/-- C10: `scrape_IMGT` looks its `immune_type` up in a dict whose only
keys are `TR` and `IG`; any other value (for example `TCR`) raises
`KeyError` before any segment is processed, and for `TR`/`IG` the
lookup cannot fail. -/
theorem scrape_IMGT_keyerror :
    (∀ (species frame immune_type : Str) (existing : List Str)
        (net : Str → Response),
      immune_type ≠ str "TR" → immune_type ≠ str "IG" →
        scrape_IMGT species immune_type existing frame net =
          Except.error immune_type) ∧
    (∀ (species frame : Str) (existing : List Str) (net : Str → Response),
      scrape_IMGT species (str "TCR") existing frame net =
        Except.error (str "TCR")) ∧
    (∀ (species frame immune_type : Str) (existing : List Str)
        (net : Str → Response),
      (immune_type = str "TR" ∨ immune_type = str "IG") →
        ∃ t, scrape_IMGT species immune_type existing frame net =
          Except.ok t) := by
  have herr : ∀ (species frame immune_type : Str) (existing : List Str)
      (net : Str → Response),
      immune_type ≠ str "TR" → immune_type ≠ str "IG" →
        scrape_IMGT species immune_type existing frame net =
          Except.error immune_type := by
    intro species frame immune_type existing net h1 h2
    have hl : segments.lookup immune_type = none := by
      have b1 : (immune_type == str "TR") = false := by
        simp [h1]
      have b2 : (immune_type == str "IG") = false := by
        simp [h2]
      simp [segments, List.lookup, b1, b2]
    unfold scrape_IMGT
    rw [hl]
  refine ⟨herr, ?_, ?_⟩
  · intro species frame existing net
    exact herr species frame (str "TCR") existing net (by decide) (by decide)
  · intro species frame immune_type existing net h
    cases h with
    | inl h =>
      subst h
      exact ⟨_, rfl⟩
    | inr h =>
      subst h
      exact ⟨_, rfl⟩

/-- C10 witness: the unguarded lookup fails for `TCR` and succeeds for
`TR`. -/
theorem scrape_IMGT_keyerror_witness :
    scrape_IMGT (str "Homo sapiens") (str "TCR") [] (str "7.2")
        (fun _ => ⟨404, []⟩) = Except.error (str "TCR") ∧
    ∃ t, scrape_IMGT (str "Homo sapiens") (str "TR") [] (str "7.2")
        (fun _ => ⟨404, []⟩) = Except.ok t := by
  constructor
  · exact scrape_IMGT_keyerror.2.1 (str "Homo sapiens") (str "7.2") []
      (fun _ => ⟨404, []⟩)
  · exact scrape_IMGT_keyerror.2.2 (str "Homo sapiens") (str "7.2")
      (str "TR") [] (fun _ => ⟨404, []⟩) (Or.inl rfl)

/-- Mapping a function over a flattened list of lists is the flattening
of the per-list maps. -/
theorem flatMap_id_map (files : List (List Record)) (f : Record → Str) :
    (files.flatMap id).map f = files.flatMap fun recs => recs.map f := by
  induction files with
  | nil => rfl
  | cons recs rest ih =>
    rw [List.flatMap_cons, List.flatMap_cons, List.map_append, ih]
    rfl

/-- C2: `create_library` writes to `{output_dir.parent}/library/library.fasta`
(truncating on open) exactly the records parsed from all `*.fasta` files
of the target directory, one write per record, in file order then record
order: `>{header}` then the upper-cased sequence then a newline, with the
header simplified exactly when `simple_headers` is set.  No record is
added, dropped, or re-paired. -/
theorem create_library_spec :
    ∀ (directory : List Str) (files : List (List Record))
      (simple_headers : Bool),
      (create_library directory files simple_headers).1 =
        directory.dropLast ++ [str "library", str "library.fasta"] ∧
      (create_library directory files simple_headers).2 =
        (files.flatMap id).map (fun r =>
          '>' :: ((if simple_headers then edit_header r.description
                   else r.description) ++
            '\n' :: (pyUpper r.seq ++ str "\n"))) := by
  intro directory files simple_headers
  constructor
  · rfl
  · show files.flatMap (fun recs => recs.map (record_entry simple_headers)) = _
    rw [flatMap_id_map]
    rfl

/-- C8: `cleanup` deletes every `*.fasta` file directly inside the
directory and then removes the directory itself; when any non-fasta file
remains, the removal raises an error that propagates, carrying exactly
the non-fasta files, which are left in place. -/
theorem cleanup_spec :
    ∀ contents : List Str,
      ((∀ f ∈ contents, isFasta f) → cleanup contents = Except.ok ()) ∧
      ((∃ f ∈ contents, ¬ isFasta f) →
        cleanup contents =
          Except.error (contents.filter fun f => !(isFasta f)) ∧
        (contents.filter fun f => !(isFasta f)) ≠ [] ∧
        ∀ g ∈ (contents.filter fun f => !(isFasta f)), g ∈ contents ∧ ¬ isFasta g) := by
  intro contents
  constructor
  · intro h
    have hall : (contents.filter fun f => !(isFasta f)) = [] := by
      rw [List.filter_eq_nil_iff]
      intro f hf
      simp [h f hf]
    unfold cleanup rmdir unlink_fastas
    rw [hall]
    rfl
  · rintro ⟨f, hf, hnf⟩
    have hne : (contents.filter fun f => !(isFasta f)) ≠ [] := by
      intro hempty
      rw [List.filter_eq_nil_iff] at hempty
      exact hempty f hf (by simp [Bool.eq_false_iff.mpr hnf])
    refine ⟨?_, hne, ?_⟩
    · unfold cleanup rmdir unlink_fastas
      rw [if_neg (by simpa using hne)]
    · intro g hg
      have := List.mem_filter.mp hg
      refine ⟨this.1, ?_⟩
      simpa using this.2

/-- C8 witness: a directory of only fasta files cleans up fully; a
directory with a stray text file errors out with that file left in
place. -/
theorem cleanup_spec_witness :
    cleanup [str "TRBV.fasta", str "TRBJ.fasta"] = Except.ok () ∧
    cleanup [str "notes.txt", str "TRBV.fasta"] =
      Except.error [str "notes.txt"] := by
  constructor
  · exact (cleanup_spec [str "TRBV.fasta", str "TRBJ.fasta"]).1 (by decide)
  · exact ((cleanup_spec [str "notes.txt", str "TRBV.fasta"]).2
      ⟨str "notes.txt", by decide, by decide⟩).1

/-- C9 counterexample: the CLI `--type` flag does NOT accept `TCR`; its
`choices` list is exactly `TR` and `IG`, so `TCR` is rejected at parse
time with a usage error. -/
theorem parse_type_TCR_rejected :
    parse_type (str "TCR") = Except.error (str "TCR") ∧
    ¬ (str "TCR" ∈ type_choices) :=
  ⟨rfl, by decide⟩

/-- C9 (amended): the `--type` flag upper-cases its value and accepts
exactly `TR` and `IG` (each selecting its segment-name list); every
other value, including `TCR`, is rejected at parse time with a usage
error. -/
theorem parse_type_spec :
    (∀ raw : Str, pyUpper raw = str "TR" ∨ pyUpper raw = str "IG" →
      parse_type raw = Except.ok (pyUpper raw)) ∧
    (∀ raw : Str, pyUpper raw ≠ str "TR" → pyUpper raw ≠ str "IG" →
      parse_type raw = Except.error (pyUpper raw)) ∧
    parse_type (str "tr") = Except.ok (str "TR") ∧
    parse_type (str "Ig") = Except.ok (str "IG") ∧
    segments.lookup (str "TR") =
      some [str "TRBV", str "TRBJ", str "TRBD", str "TRAV", str "TRAJ",
        str "TRDD", str "TRDJ", str "TRDV", str "TRGV", str "TRGJ"] ∧
    segments.lookup (str "IG") =
      some [str "IGHV", str "IGHD", str "IGHJ", str "IGKV",
        str "IGKJ", str "IGLV", str "IGLJ"] := by
  refine ⟨?_, ?_, rfl, rfl, rfl, rfl⟩
  · intro raw h
    have hm : type_choices.contains (pyUpper raw) = true := by
      cases h with
      | inl h => rw [h]; decide
      | inr h => rw [h]; decide
    unfold parse_type
    rw [if_pos hm]
  · intro raw h1 h2
    have hm : ¬ (type_choices.contains (pyUpper raw) = true) := by
      intro hc
      have := List.mem_of_elem_eq_true hc
      simp only [type_choices, List.mem_cons, List.mem_singleton] at this
      cases this with
      | inl h => exact h1 h
      | inr h =>
        cases h with
        | inl h => exact h2 h
        | inr h => exact absurd h (List.not_mem_nil _)
    unfold parse_type
    rw [if_neg hm]

/-- C9 witness: lower-case inputs normalize and are accepted; an
arbitrary other value is rejected. -/
theorem parse_type_spec_witness :
    parse_type (str "ig") = Except.ok (str "IG") ∧
    parse_type (str "tcr") = Except.error (str "TCR") := by
  constructor
  · have := parse_type_spec.1 (str "ig") (Or.inr (by decide))
    rw [this]
    exact congrArg Except.ok (by decide)
  · have := parse_type_spec.2.1 (str "tcr") (by decide) (by decide)
    rw [this]
    exact congrArg Except.error (by decide)

end IMGT
